import Mathlib

/-!
# Verification of `python-plots/plot.py` (chemplexity/chromatography)

A shallow embedding of the chromatogram-processing script.  Python floats
are modelled as rationals (`ℚ`); the variable `baseline`, initialised to
`math.inf`, is modelled as `Option ℚ` where `none` stands for `math.inf`.
Input rows are already-parsed pairs of floats (time in minutes, signal).
Lines printed to standard output are collected in a list of strings, and
the data handed to `ax.plot` is recorded in the `plot` field.
-/

namespace Plot

/-- The mutable state of the script: the `baseline` accumulator
(line 19, `none` = `math.inf`), the four lists (lines 21–25), the lines
printed to stdout, the integration `result` (line 62) and the data handed
to `ax.plot` (line 70). -/
structure ScriptState where
  baseline : Option ℚ
  x_vals : List ℚ
  y_vals : List ℚ
  peak_x_vals : List ℚ
  peak_y_vals : List ℚ
  stdout : List String
  result : Option ℚ
  plot : Option (List ℚ × List ℚ)
deriving Repr, DecidableEq

/-- State at the top of the script (lines 19–25): `baseline = math.inf`,
all lists empty, nothing printed, nothing integrated, nothing plotted. -/
def initState : ScriptState :=
  { baseline := none, x_vals := [], y_vals := [], peak_x_vals := [],
    peak_y_vals := [], stdout := [], result := none, plot := none }

/-- Lines 28–37: the CSV read loop.  For each row the first float times 60
is appended to `x_vals` and the second float to `y_vals`. -/
def loadStep (rows : List (ℚ × ℚ)) (s : ScriptState) : ScriptState :=
  rows.foldl
    (fun st r =>
      { st with x_vals := st.x_vals ++ [r.1 * 60],
                y_vals := st.y_vals ++ [r.2] })
    s

/-- Line 51–52: `if baseline > SIGNAL: baseline = SIGNAL`, with `none`
playing the role of `math.inf` (which is greater than every float). -/
def blUpdate (b : Option ℚ) (y : ℚ) : Option ℚ :=
  match b with
  | none => some y
  | some q => if q > y then some y else some q

/-- Body of the loop on lines 40–54 for one `(x_vals[i], y_vals[i])` pair:
skip when the time lies outside `[ps, pe]`; otherwise append the time to
`peak_x_vals`, update `baseline`, and append the signal to
`peak_y_vals`. -/
def peakBody (ps pe : ℚ) (st : ScriptState) (p : ℚ × ℚ) : ScriptState :=
  if p.1 < ps ∨ p.1 > pe then st
  else
    { st with peak_x_vals := st.peak_x_vals ++ [p.1],
              baseline := blUpdate st.baseline p.2,
              peak_y_vals := st.peak_y_vals ++ [p.2] }

/-- Lines 40–54: the peak-derivation loop, iterating over `y_vals` with a
running index `i` into `x_vals`; since both lists grow in lockstep during
loading this is iteration over their zip. -/
def peakStep (ps pe : ℚ) (s : ScriptState) : ScriptState :=
  (s.x_vals.zip s.y_vals).foldl (peakBody ps pe) s

/-- How `print('Baseline is', baseline)` renders the accumulator: Python
prints `math.inf` as `inf`. -/
def fmtBaseline : Option ℚ → String
  | none => "inf"
  | some q => toString q

/-- Line 56: `print('Baseline is', baseline)`. -/
def printBaselineStep (s : ScriptState) : ScriptState :=
  { s with stdout := s.stdout ++ ["Baseline is " ++ fmtBaseline s.baseline] }

/-- Line 59: `peak_y_vals = [y_val - baseline for y_val in peak_y_vals]`.
At this point `baseline` is `none` (`math.inf`) exactly when
`peak_y_vals` is empty (`baseline_none_iff`), so only the finite case is
ever subtracted; `getD` supplies a default that is never used. -/
def correctStep (s : ScriptState) : ScriptState :=
  { s with peak_y_vals := s.peak_y_vals.map (fun y => y - s.baseline.getD 0) }

/-- `scipy.integrate.trapz(y, x)`: with `d = x[1:] - x[:-1]` the result is
`sum(d * (y[1:] + y[:-1]) / 2)`; `zipWith` on a list and its tail forms
exactly the `[1:]`/`[:-1]` pairings. -/
def trapz (y x : List ℚ) : ℚ :=
  (List.zipWith (fun d s => d * s / 2)
    (List.zipWith (fun a b => a - b) x.tail x)
    (List.zipWith (fun a b => a + b) y.tail y)).sum

/-- Lines 62–63: compute the peak area and print it. -/
def integrateStep (s : ScriptState) : ScriptState :=
  let r := trapz s.peak_y_vals s.peak_x_vals
  { s with result := some r,
           stdout := s.stdout ++ ["Peak area: " ++ toString r] }

/-- Lines 66–70: the figure plots `x_vals` against `y_vals`. -/
def renderStep (s : ScriptState) : ScriptState :=
  { s with plot := some (s.x_vals, s.y_vals) }

/-- State after the CSV read loop. -/
def loadedState (rows : List (ℚ × ℚ)) : ScriptState :=
  loadStep rows initState

/-- State after the peak-derivation loop (lines 40–54). -/
def windowedState (ps pe : ℚ) (rows : List (ℚ × ℚ)) : ScriptState :=
  peakStep ps pe (loadedState rows)

/-- State after the baseline print and the baseline correction (line 59). -/
def correctedState (ps pe : ℚ) (rows : List (ℚ × ℚ)) : ScriptState :=
  correctStep (printBaselineStep (windowedState ps pe rows))

/-- The whole script, run with window bounds `ps`, `pe` on the parsed
rows of the CSV file. -/
def runScript (ps pe : ℚ) (rows : List (ℚ × ℚ)) : ScriptState :=
  renderStep (integrateStep (correctedState ps pe rows))

/-- Line 15: `PEAK_START_TIME = 150`. -/
def PEAK_START_TIME : ℚ := 150

/-- Line 16: `PEAK_END_TIME = 300`. -/
def PEAK_END_TIME : ℚ := 300

/-- The times of the loaded Series: minutes converted to seconds. -/
def xvals (rows : List (ℚ × ℚ)) : List ℚ :=
  rows.map (fun r => r.1 * 60)

/-- The signals of the loaded Series. -/
def yvals (rows : List (ℚ × ℚ)) : List ℚ :=
  rows.map (fun r => r.2)

/-- The loaded Series as (time, signal) pairs. -/
def seriesOf (rows : List (ℚ × ℚ)) : List (ℚ × ℚ) :=
  (xvals rows).zip (yvals rows)

/-- Membership of a sample in the inclusive window, as the spec words it. -/
def inWindow (ps pe : ℚ) (p : ℚ × ℚ) : Bool :=
  ps ≤ p.1 ∧ p.1 ≤ pe

/-- The samples the peak loop keeps, in order. -/
def keptPairs (ps pe : ℚ) (rows : List (ℚ × ℚ)) : List (ℚ × ℚ) :=
  (seriesOf rows).filter (inWindow ps pe)

/-- The times of the Peak Series. -/
def peakXs (ps pe : ℚ) (rows : List (ℚ × ℚ)) : List ℚ :=
  (keptPairs ps pe rows).map Prod.fst

/-- The signals of the Peak Series, before baseline correction. -/
def peakYs (ps pe : ℚ) (rows : List (ℚ × ℚ)) : List ℚ :=
  (keptPairs ps pe rows).map Prod.snd

/-- The value of the `baseline` accumulator after the peak loop. -/
def baselineVal (ps pe : ℚ) (rows : List (ℚ × ℚ)) : Option ℚ :=
  (peakYs ps pe rows).foldl blUpdate none

/-- The signals of the Corrected Peak Series (line 59's reassignment). -/
def correctedYs (ps pe : ℚ) (rows : List (ℚ × ℚ)) : List ℚ :=
  (peakYs ps pe rows).map (fun y => y - (baselineVal ps pe rows).getD 0)

/-- The Peak Area computed on line 62. -/
def areaVal (ps pe : ℚ) (rows : List (ℚ × ℚ)) : ℚ :=
  trapz (correctedYs ps pe rows) (peakXs ps pe rows)

/-! ## Characterisation lemmas for the steps -/

lemma loadStep_spec (rows : List (ℚ × ℚ)) (s : ScriptState) :
    loadStep rows s =
      { s with x_vals := s.x_vals ++ xvals rows,
               y_vals := s.y_vals ++ yvals rows } := by
  induction rows generalizing s with
  | nil => simp [loadStep, xvals, yvals]
  | cons r rest ih =>
    show loadStep rest _ = _
    rw [ih]
    simp [xvals, yvals]

lemma blUpdate_some (a y : ℚ) : blUpdate (some a) y = some (min a y) := by
  simp only [blUpdate]
  split
  · next h => rw [min_eq_right (le_of_lt h)]
  · next h => rw [min_eq_left (not_lt.mp h)]

lemma blFold_some (l : List ℚ) (a : ℚ) :
    l.foldl blUpdate (some a) = some (l.foldl min a) := by
  induction l generalizing a with
  | nil => rfl
  | cons y rest ih => simp [blUpdate_some, ih]

lemma blFold_none_eq_none_iff (l : List ℚ) :
    l.foldl blUpdate none = none ↔ l = [] := by
  cases l with
  | nil => simp
  | cons y rest =>
    simp only [List.foldl_cons, blUpdate, blFold_some]
    simp

lemma foldl_min_spec (l : List ℚ) (a : ℚ) :
    (l.foldl min a = a ∨ l.foldl min a ∈ l) ∧
      l.foldl min a ≤ a ∧ ∀ y ∈ l, l.foldl min a ≤ y := by
  induction l generalizing a with
  | nil => exact ⟨Or.inl rfl, le_refl a, by simp⟩
  | cons y rest ih =>
    obtain ⟨hmem, hle, hall⟩ := ih (min a y)
    refine ⟨?_, ?_, ?_⟩
    · rcases hmem with h | h
      · rcases min_choice a y with hc | hc
        · exact Or.inl (by rw [List.foldl_cons, h, hc])
        · exact Or.inr (by rw [List.foldl_cons, h, hc]; exact List.mem_cons_self y rest)
      · exact Or.inr (List.mem_cons_of_mem y h)
    · exact le_trans hle (min_le_left a y)
    · intro z hz
      rcases List.mem_cons.mp hz with rfl | hz
      · exact le_trans hle (min_le_right a z)
      · exact hall z hz

lemma peakFold_spec (ps pe : ℚ) (l : List (ℚ × ℚ)) (st : ScriptState) :
    l.foldl (peakBody ps pe) st =
      { st with
        peak_x_vals := st.peak_x_vals ++ (l.filter (inWindow ps pe)).map Prod.fst,
        peak_y_vals := st.peak_y_vals ++ (l.filter (inWindow ps pe)).map Prod.snd,
        baseline :=
          ((l.filter (inWindow ps pe)).map Prod.snd).foldl blUpdate st.baseline } := by
  induction l generalizing st with
  | nil => simp
  | cons p rest ih =>
    rw [List.foldl_cons, ih]
    by_cases h : p.1 < ps ∨ p.1 > pe
    · have hw : inWindow ps pe p = false := by
        simp only [inWindow, decide_eq_false_iff_not, not_and, not_le]
        intro h1
        rcases h with h | h
        · exact absurd h1 (not_le.mpr h)
        · exact h
      simp [peakBody, h, hw]
    · have hw : inWindow ps pe p = true := by
        push_neg at h
        simp only [inWindow, decide_eq_true_eq]
        exact ⟨not_lt.mp (fun hc => absurd h.1 (not_le.mpr hc)) , h.2⟩
      simp [peakBody, if_neg h, hw]

lemma windowedState_eq (ps pe : ℚ) (rows : List (ℚ × ℚ)) :
    windowedState ps pe rows =
      { baseline := baselineVal ps pe rows,
        x_vals := xvals rows,
        y_vals := yvals rows,
        peak_x_vals := peakXs ps pe rows,
        peak_y_vals := peakYs ps pe rows,
        stdout := [], result := none, plot := none } := by
  have hload : loadedState rows =
      { initState with x_vals := xvals rows, y_vals := yvals rows } :=
    (loadStep_spec rows initState).trans (by simp [initState])
  unfold windowedState peakStep
  rw [hload]
  rw [peakFold_spec]
  simp [initState, keptPairs, seriesOf, peakXs, peakYs, baselineVal]

lemma trapz_nil_x (y : List ℚ) : trapz y [] = 0 := by
  simp [trapz]

lemma trapz_single_x (y : List ℚ) (a : ℚ) : trapz y [a] = 0 := by
  simp [trapz]

lemma trapz_cons_cons (b d : ℚ) (ys : List ℚ) (a c : ℚ) (xs : List ℚ) :
    trapz (b :: d :: ys) (a :: c :: xs) =
      (c - a) * (b + d) / 2 + trapz (d :: ys) (c :: xs) := by
  simp only [trapz, List.tail_cons, List.zipWith_cons_cons, List.sum_cons]
  ring_nf

/-- `trapz` computes the trapezoidal-rule sum
`Σ_{k<n-1} (x_{k+1} − x_k)(y_k + y_{k+1})/2` for equal-length samples. -/
lemma trapz_eq_sum (n : ℕ) (y x : List ℚ) (hy : y.length = n) (hx : x.length = n) :
    trapz y x = ∑ k in Finset.range (n - 1),
      (x.getD (k + 1) 0 - x.getD k 0) * (y.getD k 0 + y.getD (k + 1) 0) / 2 := by
  induction n generalizing y x with
  | zero =>
    rw [List.length_eq_zero] at hx
    subst hx
    simp [trapz_nil_x]
  | succ m ih =>
    cases x with
    | nil => simp at hx
    | cons a x' =>
      cases y with
      | nil => simp at hy
      | cons b y' =>
        simp only [List.length_cons, Nat.succ.injEq] at hx hy
        cases m with
        | zero =>
          simp [trapz_single_x, List.length_eq_zero.mp hx]
        | succ k =>
          cases x' with
          | nil => simp at hx
          | cons c xs =>
            cases y' with
            | nil => simp at hy
            | cons d ys =>
              rw [trapz_cons_cons, ih (d :: ys) (c :: xs) hy hx]
              rw [Nat.succ_sub_one, Nat.succ_sub_one]
              rw [Finset.sum_range_succ']
              simp only [List.getD_cons_succ, List.getD_cons_zero]
              ring

lemma runScript_eq (ps pe : ℚ) (rows : List (ℚ × ℚ)) :
    runScript ps pe rows =
      { baseline := baselineVal ps pe rows,
        x_vals := xvals rows,
        y_vals := yvals rows,
        peak_x_vals := peakXs ps pe rows,
        peak_y_vals := correctedYs ps pe rows,
        stdout := ["Baseline is " ++ fmtBaseline (baselineVal ps pe rows),
                   "Peak area: " ++ toString (areaVal ps pe rows)],
        result := some (areaVal ps pe rows),
        plot := some (xvals rows, yvals rows) } := by
  unfold runScript correctedState
  rw [windowedState_eq]
  simp only [printBaselineStep, correctStep, integrateStep, renderStep,
    correctedYs, areaVal]
  simp

lemma seriesOf_eq_map (rows : List (ℚ × ℚ)) :
    seriesOf rows = rows.map (fun r => (r.1 * 60, r.2)) := by
  simp [seriesOf, xvals, yvals, List.zip_map']

lemma baselineVal_spec (ps pe : ℚ) (rows : List (ℚ × ℚ))
    (h : peakYs ps pe rows ≠ []) :
    ∃ b : ℚ, baselineVal ps pe rows = some b ∧ b ∈ peakYs ps pe rows ∧
      ∀ y ∈ peakYs ps pe rows, b ≤ y := by
  obtain ⟨y, rest, heq⟩ := List.exists_cons_of_ne_nil h
  obtain ⟨hmem, -, hall⟩ := foldl_min_spec rest y
  refine ⟨rest.foldl min y, ?_, ?_, ?_⟩
  · rw [baselineVal, heq, List.foldl_cons]
    show List.foldl blUpdate (some y) rest = _
    exact blFold_some rest y
  · rw [heq]
    rcases hmem with h' | h'
    · rw [h']; exact List.mem_cons_self y rest
    · exact List.mem_cons_of_mem y h'
  · intro z hz
    rw [heq] at hz
    rcases List.mem_cons.mp hz with rfl | hz
    · exact (foldl_min_spec rest z).2.1
    · exact hall z hz

lemma baselineVal_none_iff (ps pe : ℚ) (rows : List (ℚ × ℚ)) :
    baselineVal ps pe rows = none ↔ peakYs ps pe rows = [] :=
  blFold_none_eq_none_iff (peakYs ps pe rows)

/-! ## Claim theorems -/

/-- C2: the peak loop produces the Peak Series as exactly those samples of
the loaded Series whose time `t` satisfies `ps ≤ t ∧ t ≤ pe` (both bounds
inclusive), in their original relative order. -/
theorem windowing_is_inclusive_filter (ps pe : ℚ) (rows : List (ℚ × ℚ)) :
    (windowedState ps pe rows).peak_x_vals =
      ((seriesOf rows).filter (fun p => decide (ps ≤ p.1 ∧ p.1 ≤ pe))).map Prod.fst ∧
    (windowedState ps pe rows).peak_y_vals =
      ((seriesOf rows).filter (fun p => decide (ps ≤ p.1 ∧ p.1 ≤ pe))).map Prod.snd := by
  rw [windowedState_eq]
  exact ⟨rfl, rfl⟩

/-- C3: the load step stores, for the `i`-th input row, the first parsed
float times 60 as `x_vals[i]` and the second parsed float unchanged as
`y_vals[i]`, preserving row order and producing one sample per row. -/
theorem load_converts_minutes_to_seconds (rows : List (ℚ × ℚ)) :
    (loadedState rows).x_vals.length = rows.length ∧
    (loadedState rows).y_vals.length = rows.length ∧
    ∀ i : ℕ,
      (loadedState rows).x_vals[i]? = (rows[i]?).map (fun r => r.1 * 60) ∧
      (loadedState rows).y_vals[i]? = (rows[i]?).map (fun r => r.2) := by
  have h : loadedState rows =
      { initState with x_vals := xvals rows, y_vals := yvals rows } :=
    (loadStep_spec rows initState).trans (by simp [initState])
  rw [h]
  refine ⟨by simp [xvals], by simp [yvals], fun i => ⟨?_, ?_⟩⟩
  · simp [xvals]
  · simp [yvals]

/-- C4: for a non-empty Peak Series the baseline is the minimum signal over
exactly the windowed sub-range, and the first line printed to stdout is
`Baseline is <value>`. -/
theorem baseline_is_window_min (ps pe : ℚ) (rows : List (ℚ × ℚ))
    (h : (windowedState ps pe rows).peak_y_vals ≠ []) :
    ∃ b : ℚ,
      (windowedState ps pe rows).baseline = some b ∧
      b ∈ (windowedState ps pe rows).peak_y_vals ∧
      (∀ y ∈ (windowedState ps pe rows).peak_y_vals, b ≤ y) ∧
      (runScript ps pe rows).stdout.head? = some ("Baseline is " ++ toString b) := by
  rw [windowedState_eq] at h ⊢
  obtain ⟨b, hb, hmem, hall⟩ := baselineVal_spec ps pe rows h
  exact ⟨b, hb, hmem, hall, by rw [runScript_eq]; simp [hb, fmtBaseline]⟩

/-- C4 witness: the fixture `[(0,5),(3,10),(6,8)]` with window `[0, 360]`
has a non-empty Peak Series and its baseline `5` is the window minimum,
printed as `Baseline is 5`. -/
theorem baseline_is_window_min_witness :
    ∃ b : ℚ,
      (windowedState 0 360 [(0,5),(3,10),(6,8)]).baseline = some b ∧
      b ∈ (windowedState 0 360 [(0,5),(3,10),(6,8)]).peak_y_vals ∧
      (∀ y ∈ (windowedState 0 360 [(0,5),(3,10),(6,8)]).peak_y_vals, b ≤ y) ∧
      (runScript 0 360 [(0,5),(3,10),(6,8)]).stdout.head? =
        some ("Baseline is " ++ toString b) :=
  baseline_is_window_min 0 360 [(0,5),(3,10),(6,8)] (by
    rw [windowedState_eq]
    norm_num [peakYs, keptPairs, seriesOf_eq_map, inWindow]
    exact List.cons_ne_nil _ _)

/-- C5: the correction step subtracts the baseline from every Peak Series
signal and leaves every Peak Series time unchanged. -/
theorem correction_subtracts_baseline (ps pe : ℚ) (rows : List (ℚ × ℚ)) (b : ℚ)
    (h : (windowedState ps pe rows).baseline = some b) :
    (correctedState ps pe rows).peak_x_vals = (windowedState ps pe rows).peak_x_vals ∧
    ∀ i : ℕ,
      (correctedState ps pe rows).peak_y_vals[i]? =
        ((windowedState ps pe rows).peak_y_vals[i]?).map (fun y => y - b) := by
  rw [windowedState_eq] at h
  dsimp only at h
  unfold correctedState
  rw [windowedState_eq]
  simp [correctStep, printBaselineStep, h]

/-- C5 witness: at the fixture with window `[0, 360]` and baseline `5`, the
correction keeps the peak times and subtracts `5` from each peak signal. -/
theorem correction_subtracts_baseline_witness :
    (correctedState 0 360 [(0,5),(3,10),(6,8)]).peak_x_vals =
      (windowedState 0 360 [(0,5),(3,10),(6,8)]).peak_x_vals ∧
    ∀ i : ℕ,
      (correctedState 0 360 [(0,5),(3,10),(6,8)]).peak_y_vals[i]? =
        ((windowedState 0 360 [(0,5),(3,10),(6,8)]).peak_y_vals[i]?).map
          (fun y => y - 5) :=
  correction_subtracts_baseline 0 360 [(0,5),(3,10),(6,8)] 5 (by
    rw [windowedState_eq]
    norm_num [baselineVal, peakYs, keptPairs, seriesOf_eq_map, inWindow, blUpdate])

/-- C6: the Peak Area stored in `result` equals the trapezoidal-rule sum
`Σ_{k<N-1} (t_{k+1} − t_k)(y_k + y_{k+1})/2` over the `N` samples of the
Corrected Peak Series, and is printed as `Peak area: <value>` on the
second stdout line. -/
theorem area_is_trapezoidal_sum (ps pe : ℚ) (rows : List (ℚ × ℚ)) :
    ∃ a : ℚ,
      (runScript ps pe rows).result = some a ∧
      a = ∑ k in Finset.range ((runScript ps pe rows).peak_x_vals.length - 1),
        ((runScript ps pe rows).peak_x_vals.getD (k + 1) 0 -
          (runScript ps pe rows).peak_x_vals.getD k 0) *
        ((runScript ps pe rows).peak_y_vals.getD k 0 +
          (runScript ps pe rows).peak_y_vals.getD (k + 1) 0) / 2 ∧
      (runScript ps pe rows).stdout[1]? = some ("Peak area: " ++ toString a) := by
  refine ⟨areaVal ps pe rows, ?_, ?_, ?_⟩
  · rw [runScript_eq]
  · rw [runScript_eq]
    dsimp only
    exact trapz_eq_sum (peakXs ps pe rows).length (correctedYs ps pe rows)
      (peakXs ps pe rows) (by simp [correctedYs, peakYs, peakXs]) rfl
  · rw [runScript_eq]
    rfl

/-- C7: for a non-empty Peak Series, after the single correction pass the
minimum of the corrected signals is exactly `0`. -/
theorem corrected_min_is_zero (ps pe : ℚ) (rows : List (ℚ × ℚ))
    (h : (runScript ps pe rows).peak_y_vals ≠ []) :
    0 ∈ (runScript ps pe rows).peak_y_vals ∧
    ∀ y ∈ (runScript ps pe rows).peak_y_vals, 0 ≤ y := by
  rw [runScript_eq] at h ⊢
  dsimp only at h ⊢
  have hne : peakYs ps pe rows ≠ [] := by
    intro hnil
    apply h
    simp [correctedYs, hnil]
  obtain ⟨b, hb, hmem, hall⟩ := baselineVal_spec ps pe rows hne
  constructor
  · exact List.mem_map.mpr ⟨b, hmem, by simp [hb]⟩
  · intro y hy
    obtain ⟨z, hz, rfl⟩ := List.mem_map.mp hy
    simp only [hb, Option.getD_some]
    linarith [hall z hz]

/-- C7 witness: at the fixture with window `[0, 360]` the corrected peak
signals contain `0` and are all non-negative. -/
theorem corrected_min_is_zero_witness :
    0 ∈ (runScript 0 360 [(0,5),(3,10),(6,8)]).peak_y_vals ∧
    ∀ y ∈ (runScript 0 360 [(0,5),(3,10),(6,8)]).peak_y_vals, 0 ≤ y :=
  corrected_min_is_zero 0 360 [(0,5),(3,10),(6,8)] (by
    rw [runScript_eq]
    norm_num [correctedYs, peakYs, baselineVal, keptPairs, seriesOf_eq_map,
      inWindow, blUpdate]
    exact List.cons_ne_nil _ _)

/-- C8: on the fixture rows `(0,5), (3,10), (6,8)` (minutes) with window
`[0, 360]` seconds, the Peak Series keeps all three samples at times
`[0, 180, 360]`, the baseline is `5`, the corrected signals are
`[0, 5, 3]`, and the Peak Area is `1170`. -/
theorem fixture_pipeline :
    (runScript 0 360 [(0,5),(3,10),(6,8)]).peak_x_vals = [0, 180, 360] ∧
    (windowedState 0 360 [(0,5),(3,10),(6,8)]).peak_y_vals = [5, 10, 8] ∧
    (windowedState 0 360 [(0,5),(3,10),(6,8)]).baseline = some 5 ∧
    (runScript 0 360 [(0,5),(3,10),(6,8)]).peak_y_vals = [0, 5, 3] ∧
    (runScript 0 360 [(0,5),(3,10),(6,8)]).result = some 1170 ∧
    (runScript 0 360 [(0,5),(3,10),(6,8)]).stdout =
      ["Baseline is 5", "Peak area: 1170"] := by
  rw [runScript_eq, windowedState_eq]
  norm_num [peakXs, peakYs, baselineVal, correctedYs, areaVal, keptPairs,
    seriesOf_eq_map, inWindow, blUpdate, trapz, fmtBaseline]
  exact ⟨rfl, rfl⟩

/-- C9: the render step plots exactly the loaded full Series (times versus
signals), which the windowing, baseline, correction and integration steps
leave unchanged; the plotted data does not depend on the window bounds. -/
theorem render_plots_original_series (ps pe : ℚ) (rows : List (ℚ × ℚ)) :
    (runScript ps pe rows).plot = some (xvals rows, yvals rows) ∧
    (runScript ps pe rows).x_vals = xvals rows ∧
    (runScript ps pe rows).y_vals = yvals rows ∧
    ∀ ps' pe' : ℚ, (runScript ps pe rows).plot = (runScript ps' pe' rows).plot := by
  rw [runScript_eq]
  refine ⟨rfl, rfl, rfl, fun ps' pe' => ?_⟩
  rw [runScript_eq]

/-- C10: when every loaded sample time lies outside `[ps, pe]`, the script
does not fail: the Peak Series is empty, the baseline keeps its initial
value `math.inf` (printed as `inf`), and the trapezoidal integral over the
empty Corrected Peak Series is `0`, printed as the peak area. -/
theorem empty_window_runs_to_completion (ps pe : ℚ) (rows : List (ℚ × ℚ))
    (h : ∀ r ∈ rows, r.1 * 60 < ps ∨ pe < r.1 * 60) :
    (windowedState ps pe rows).peak_x_vals = [] ∧
    (runScript ps pe rows).baseline = none ∧
    (runScript ps pe rows).result = some 0 ∧
    (runScript ps pe rows).stdout = ["Baseline is inf", "Peak area: 0"] := by
  have hkept : keptPairs ps pe rows = [] := by
    rw [keptPairs, seriesOf_eq_map, List.filter_eq_nil_iff]
    intro p hp
    obtain ⟨r, hr, rfl⟩ := List.mem_map.mp hp
    simp only [inWindow, Bool.not_eq_true, decide_eq_false_iff_not, not_and, not_le]
    intro hle
    rcases h r hr with h' | h'
    · exact absurd hle (not_le.mpr h')
    · exact h'
  rw [windowedState_eq, runScript_eq]
  refine ⟨by simp [peakXs, hkept], by simp [baselineVal, peakYs, hkept], ?_, ?_⟩
  · simp [areaVal, correctedYs, peakXs, peakYs, hkept, trapz_nil_x]
  · simp [areaVal, correctedYs, peakXs, peakYs, baselineVal, hkept,
      trapz_nil_x, fmtBaseline]
    rfl

/-- C10 witness: with the hardcoded window `[150, 300]` and the single row
`(0, 5)` (time `0` s), the script prints `Baseline is inf` and
`Peak area: 0`. -/
theorem empty_window_runs_to_completion_witness :
    (windowedState 150 300 [(0, 5)]).peak_x_vals = [] ∧
    (runScript 150 300 [(0, 5)]).baseline = none ∧
    (runScript 150 300 [(0, 5)]).result = some 0 ∧
    (runScript 150 300 [(0, 5)]).stdout = ["Baseline is inf", "Peak area: 0"] :=
  empty_window_runs_to_completion 150 300 [(0, 5)] (by norm_num)

/-- C1 counterexample: with the script's window `[150, 300]` and one sample
at time `60` s, the Peak Series is empty, yet the script does not fail
fast: it completes, computing the integral `0` over the empty set and
printing both the infinite baseline and the peak area. -/
theorem no_fail_fast_counterexample :
    (windowedState PEAK_START_TIME PEAK_END_TIME [(1, 7)]).peak_x_vals = [] ∧
    (runScript PEAK_START_TIME PEAK_END_TIME [(1, 7)]).result = some 0 ∧
    (runScript PEAK_START_TIME PEAK_END_TIME [(1, 7)]).stdout =
      ["Baseline is inf", "Peak area: 0"] := by
  rw [runScript_eq, windowedState_eq]
  norm_num [peakXs, peakYs, baselineVal, correctedYs, areaVal, keptPairs,
    seriesOf_eq_map, inWindow, blUpdate, trapz, fmtBaseline,
    PEAK_START_TIME, PEAK_END_TIME]
  exact ⟨rfl, rfl⟩

/-- C1 amended: if no sample of the Series lies within `[ps, pe]`, the
windowing step yields an empty Peak Series, but the program does not raise
an EmptyWindowError: it runs to completion, leaving the baseline at its
infinite initial value and computing the integral `0` over the empty set. -/
theorem empty_window_yields_empty_peaks (ps pe : ℚ) (rows : List (ℚ × ℚ))
    (h : ∀ p ∈ seriesOf rows, inWindow ps pe p = false) :
    (windowedState ps pe rows).peak_x_vals = [] ∧
    (windowedState ps pe rows).peak_y_vals = [] ∧
    (runScript ps pe rows).baseline = none ∧
    (runScript ps pe rows).result = some 0 := by
  have hkept : keptPairs ps pe rows = [] := by
    rw [keptPairs, List.filter_eq_nil_iff]
    intro p hp
    simp [h p hp]
  rw [windowedState_eq, runScript_eq]
  refine ⟨by simp [peakXs, hkept], by simp [peakYs, hkept],
    by simp [baselineVal, peakYs, hkept], ?_⟩
  simp [areaVal, correctedYs, peakXs, peakYs, hkept, trapz_nil_x]

/-- C1 amended witness: one sample at time `60` s with window `[150, 300]`
gives empty peak lists, baseline `inf` and area `0`. -/
theorem empty_window_yields_empty_peaks_witness :
    (windowedState PEAK_START_TIME PEAK_END_TIME [(1, 9)]).peak_x_vals = [] ∧
    (windowedState PEAK_START_TIME PEAK_END_TIME [(1, 9)]).peak_y_vals = [] ∧
    (runScript PEAK_START_TIME PEAK_END_TIME [(1, 9)]).baseline = none ∧
    (runScript PEAK_START_TIME PEAK_END_TIME [(1, 9)]).result = some 0 :=
  empty_window_yields_empty_peaks PEAK_START_TIME PEAK_END_TIME [(1, 9)] (by
    norm_num [seriesOf_eq_map, inWindow, PEAK_START_TIME, PEAK_END_TIME])

end Plot
